import Mathlib

/-!
Shallow embedding of the RentHabit admin content-moderation router
(`src/unnamed/part_000`): session gate, login, S3 key derivation, and the
content-lifecycle handlers (approve / feature / reject), together with a
small object-store semantics for their S3 operation traces.

Time is embedded explicitly: `now` is a natural number of milliseconds,
and the current UTC date string (used by the `featured` key template) is
an injected `today : String` parameter.
-/

namespace RentHabit

/-- Bucket names, from the `S3_BUCKETS` constant in the source. -/
def mediaBucket : String := "renthabit-media"

/-- The public web bucket, from `S3_BUCKETS.web`. -/
def webBucket : String := "renthabit-web-prod"

/-- Idle timeout in milliseconds: `2 * 60 * 60 * 1000` in `requireAuth`. -/
def sessionTimeout : Nat := 2 * 60 * 60 * 1000

/-- The admin session record kept by the HTTP session layer.
`lastActivity` is optional: a session may have never recorded activity,
mirroring `req.session.lastActivity` being undefined. Timestamps are
milliseconds. -/
structure Session where
  adminAuthenticated : Bool
  adminUsername : String
  adminEmail : String
  loginTime : Nat
  lastActivity : Option Nat
  deriving Repr, DecidableEq

/-- Outcome of the authenticated-request gate. `denied` carries the HTTP
status, the error body, the redirect hint, and whether the session was
destroyed; `proceed` carries the updated session. -/
inductive GateOutcome where
  | denied (status : Nat) (error redirectTo : String) (destroyed : Bool)
  | proceed (s : Session)
  deriving Repr, DecidableEq

/-- The `requireAuth` middleware (source lines 59-81): reject unauthenticated
sessions with 401; compute the idle gap from `lastActivity`, falling back
to `loginTime` when no activity was recorded (`req.session.lastActivity ||
req.session.loginTime`); destroy and reject with 401 when the gap exceeds
the timeout; otherwise stamp `lastActivity := now` and let the request
through. `now - last` uses truncated subtraction, which agrees with the
JavaScript comparison `now - lastActivity > sessionTimeout` because a
negative difference is never greater than the positive timeout. -/
def requireAuth (s : Session) (now : Nat) : GateOutcome :=
  if !s.adminAuthenticated then
    .denied 401 "Authentication required" "/admin/login" false
  else
    let last := s.lastActivity.getD s.loginTime
    if now - last > sessionTimeout then
      .denied 401 "Session expired" "/admin/login" true
    else
      .proceed { s with lastActivity := some now }

/-- The `lastActivity` values recorded by a run of the gate over a list of
request times, provided every request in the list is allowed through. -/
def activityTrace (s : Session) : List Nat → Option (List Nat)
  | [] => some []
  | t :: ts =>
    match requireAuth s t with
    | .proceed s' => (activityTrace s' ts).map (fun l => t :: l)
    | .denied _ _ _ _ => none

/-! ### S3 key derivation -/

/-- Characters kept unchanged by the filename sanitizer: the regex class
`[a-zA-Z0-9.-]` of `fileName.replace(/[^a-zA-Z0-9.-]/g, '_')`. -/
def isKeyChar (c : Char) : Bool :=
  (('a' ≤ c && c ≤ 'z') || ('A' ≤ c && c ≤ 'Z') ||
   ('0' ≤ c && c ≤ '9') || c = '.' || c = '-')

/-- The sanitizer `cleanFileName`: every character outside `[a-zA-Z0-9.-]` becomes an
underscore. -/
def sanitizeFileName (fileName : String) : String :=
  String.mk (fileName.data.map (fun c => if isKeyChar c then c else '_'))

/-- JavaScript `s.replace('.', '_enhanced.')` on the character list:
only the first occurrence of a dot is replaced. -/
def replaceFirstDotAux : List Char → List Char
  | [] => []
  | c :: cs => if c = '.' then "_enhanced.".data ++ cs else c :: replaceFirstDotAux cs

/-- The filename variant used under `/edited/`: first dot replaced by
`_enhanced.`. -/
def enhancedFileName (s : String) : String :=
  String.mk (replaceFirstDotAux s.data)

/-- Key derivation `generateS3Key(stage, userId, propertyId, fileName)` (source lines
83-95). `today` stands for `new Date().toISOString().split('T')[0]`, the
current UTC date injected as a parameter. An unknown stage falls back to
the pending template (`paths[stage] || paths.pending`). -/
def generateS3Key (stage userId propertyId fileName today : String) : String :=
  let cleanFileName := sanitizeFileName fileName
  if stage = "pending" then
    "pending-uploads/" ++ userId ++ "/property-" ++ propertyId ++ "/images/" ++ cleanFileName
  else if stage = "approved_original" then
    "approved-content/" ++ userId ++ "/property-" ++ propertyId ++ "/original/" ++ cleanFileName
  else if stage = "approved_edited" then
    "approved-content/" ++ userId ++ "/property-" ++ propertyId ++ "/edited/" ++ enhancedFileName cleanFileName
  else if stage = "featured" then
    "featured-showcase/curated-properties/" ++ today ++ "_" ++ cleanFileName
  else
    "pending-uploads/" ++ userId ++ "/property-" ++ propertyId ++ "/images/" ++ cleanFileName

/-- JavaScript `s.split('/')` on the character list: `acc` holds the current segment
reversed. Always returns at least one segment. -/
def splitSlashAux : List Char → List Char → List (List Char)
  | [], acc => [acc.reverse]
  | c :: cs, acc =>
    if c = '/' then acc.reverse :: splitSlashAux cs [] else splitSlashAux cs (c :: acc)

/-- JavaScript `s3Key.split('/').pop()`: the segment after the final slash. -/
def lastSegment (s : String) : String :=
  String.mk ((splitSlashAux s.data []).getLastD [])

/-! ### Credential store adapter -/

/-- Admin identity returned by `getAdminCredentials`. -/
structure AdminCredentials where
  username : String
  passwordHash : String
  email : String
  deriving Repr, DecidableEq

/-- How a secret-store fetch can fail (the `catch` arm of
`getAdminCredentials` handles all of these alike). -/
inductive SecretFailure where
  | network
  | missingSecret
  | malformedPayload
  deriving Repr, DecidableEq

/-- Environment values consumed by the credential fallback; `none` means
the variable is unset. -/
structure CredEnv where
  adminUsername : Option String
  adminPasswordHash : Option String
  adminEmail : Option String
  deriving Repr, DecidableEq

/-- The fallback record built in the `catch` arm of `getAdminCredentials`:
environment values, or the hardcoded defaults. -/
def fallbackCredentials (env : CredEnv) : AdminCredentials :=
  { username := env.adminUsername.getD "admin"
    passwordHash :=
      env.adminPasswordHash.getD "$2b$12$LQv3c1yqBWVHxkd0LHAkCOYz6TtxMQJqhN8/LewdhquMgGFbOvS0a"
    email := env.adminEmail.getD "admin@renthabit.com" }

/-- The adapter `getAdminCredentials` (source lines 42-57). The secret-store call and
the JSON parse are embedded as an `Except` outcome. The Boolean records
whether the failure branch logged (`console.error`). The function is total:
every outcome yields a credentials record. -/
def getAdminCredentials (outcome : Except SecretFailure AdminCredentials)
    (env : CredEnv) : AdminCredentials × Bool :=
  match outcome with
  | .ok creds => (creds, false)
  | .error _ => (fallbackCredentials env, true)

/-! ### Login -/

/-- Drop leading whitespace characters. -/
def dropLeadingWs : List Char → List Char
  | [] => []
  | c :: cs => if c.isWhitespace then dropLeadingWs cs else c :: cs

/-- JavaScript `username.toLowerCase().trim()` as applied to both sides of the
username comparison: lowercase every character, then strip whitespace
from both ends. -/
def normalizeUsername (s : String) : String :=
  String.mk ((dropLeadingWs ((dropLeadingWs ((s.data.map Char.toLower).reverse)).reverse)))

/-- Result of `POST /api/admin/auth/login` (source lines 97-131), after
field validation and rate limiting. `missingFields` is the 400 response,
`invalidCredentials` the generic 401 response, `success` carries the
established session and the redirect. -/
inductive LoginResult where
  | missingFields
  | invalidCredentials
  | success (s : Session) (redirectTo : String)
  deriving Repr, DecidableEq

/-- HTTP status of a login result. -/
def LoginResult.statusCode : LoginResult → Nat
  | .missingFields => 400
  | .invalidCredentials => 401
  | .success _ _ => 200

/-- Error body of a login result (empty on success). -/
def LoginResult.errorBody : LoginResult → String
  | .missingFields => "Username and password required"
  | .invalidCredentials => "Invalid credentials"
  | .success _ _ => ""

/-- The login handler. `compare` embeds `bcrypt.compare(password, hash)`.
Empty strings model the falsy check `!username || !password`. On success
the session is created with `loginTime = lastActivity = now`. -/
def loginHandler (username password : String) (creds : AdminCredentials)
    (compare : String → String → Bool) (now : Nat) : LoginResult :=
  if username = "" || password = "" then
    .missingFields
  else
    let validUsername := normalizeUsername username = normalizeUsername creds.username
    let validPassword := compare password creds.passwordHash
    if validUsername ∧ validPassword then
      .success
        { adminAuthenticated := true
          adminUsername := creds.username
          adminEmail := creds.email
          loginTime := now
          lastActivity := some now }
        "/admin/dashboard"
    else
      .invalidCredentials

/-! ### Object store operations and semantics -/

/-- The S3 commands the router can issue. `copy` keeps the raw
`CopySource` string (`"bucket/key"`), as the AWS API does. -/
inductive S3Op where
  | copy (bucket copySource key : String) (metadata : List (String × String))
  | put (bucket key body : String) (metadata : List (String × String))
  | listObjects (bucket p : String) (maxKeys : Nat)
  | deleteObject (bucket key : String)
  deriving Repr, DecidableEq

/-- Object-store contents: full path `"bucket/key"` to object body. The
body of a copied object is the body found at its `CopySource` path. -/
def Store := String → Option String

/-- Effect of one S3 command on the store. Listing reads only. -/
def applyOp (op : S3Op) (st : Store) : Store :=
  match op with
  | .copy bucket copySource key _ =>
    fun p => if p = bucket ++ "/" ++ key then st copySource else st p
  | .put bucket key body _ =>
    fun p => if p = bucket ++ "/" ++ key then some body else st p
  | .listObjects _ _ _ => st
  | .deleteObject bucket key =>
    fun p => if p = bucket ++ "/" ++ key then none else st p

/-- Effect of a command sequence, in order. -/
def applyOps (ops : List S3Op) (st : Store) : Store :=
  ops.foldl (fun acc op => applyOp op acc) st

/-- Run a command sequence where individual commands may fail: execution
stops at the first failing command (the thrown rejection reaches the
handler's `catch`), returning the store as mutated so far and whether all
commands succeeded. -/
def runOps (fails : S3Op → Bool) : List S3Op → Store → Store × Bool
  | [], st => (st, true)
  | op :: ops, st =>
    if fails op then (st, false) else runOps fails ops (applyOp op st)

/-! ### Content lifecycle handlers -/

/-- Request body of the approve route. An empty `s3Key` models the falsy
check `if (!s3Key)`; `adminNotes` is already defaulted (`adminNotes || ''`
in the metadata). -/
structure ApproveBody where
  adminNotes : String
  s3Key : String
  userId : String
  propertyId : String
  deriving Repr, DecidableEq

/-- Result of the approve handler body. -/
inductive ApproveResult where
  | missingKey
  | ok (originalKey approvedBy s3Bucket : String)
  deriving Repr, DecidableEq

/-- Route `POST /api/admin/content/:contentId/approve` (source lines 250-285),
past the auth gate: requires `s3Key`, takes the filename from its last
path segment, derives the `approved_original` destination key, and issues
one same-bucket copy with approval metadata. `nowIso` stands for
`new Date().toISOString()` in the metadata. -/
def approveHandler (adminUsername : String) (body : ApproveBody)
    (today nowIso : String) : List S3Op × ApproveResult :=
  if body.s3Key = "" then
    ([], .missingKey)
  else
    let fileName := lastSegment body.s3Key
    let originalKey := generateS3Key "approved_original" body.userId body.propertyId fileName today
    ([S3Op.copy mediaBucket (mediaBucket ++ "/" ++ body.s3Key) originalKey
        [("status", "approved"), ("approvedDate", nowIso),
         ("adminNotes", body.adminNotes), ("approvedBy", adminUsername)]],
     .ok originalKey adminUsername mediaBucket)

/-- Request body of the feature route; `priority` and `position` default
to `1` and `"gallery"` when absent. -/
structure FeatureBody where
  s3Key : String
  userId : String
  propertyId : String
  priority : Option Nat
  position : Option String
  deriving Repr, DecidableEq

/-- Result of the feature handler body: both destination keys and both
bucket names. -/
inductive FeatureResult where
  | missingKey
  | ok (featuredKey publicKey featuredBy media web : String)
  deriving Repr, DecidableEq

/-- Route `POST /api/admin/content/:contentId/feature` (source lines 287-338),
past the auth gate: requires `s3Key`; derives the `featured` media-bucket
key and copies the source there, then copies the same source into the
public web bucket under `assets/properties/{propertyId}/{fileName}`.
The two copies appear in the list in the order they are awaited. -/
def featureHandler (adminUsername : String) (body : FeatureBody)
    (today nowIso : String) : List S3Op × FeatureResult :=
  if body.s3Key = "" then
    ([], .missingKey)
  else
    let fileName := lastSegment body.s3Key
    let featuredKey := generateS3Key "featured" body.userId body.propertyId fileName today
    let publicKey := "assets/properties/" ++ body.propertyId ++ "/" ++ fileName
    ([S3Op.copy mediaBucket (mediaBucket ++ "/" ++ body.s3Key) featuredKey
        [("status", "featured"), ("featuredDate", nowIso),
         ("position", (body.position.getD "gallery")),
         ("priority", toString (body.priority.getD 1)),
         ("featuredBy", adminUsername)],
      S3Op.copy webBucket (mediaBucket ++ "/" ++ body.s3Key) publicKey
        [("source", "featured"), ("featuredDate", nowIso)]],
     .ok featuredKey publicKey adminUsername mediaBucket webBucket)

/-- The first copy the feature route awaits: same-bucket copy of the
source into the `featured` key, with featuring metadata (source lines
299-310). -/
def featureMediaOp (username s3Key userId propertyId today nowIso : String)
    (priority : Option Nat) (position : Option String) : S3Op :=
  S3Op.copy mediaBucket (mediaBucket ++ "/" ++ s3Key)
    (generateS3Key "featured" userId propertyId (lastSegment s3Key) today)
    [("status", "featured"), ("featuredDate", nowIso),
     ("position", position.getD "gallery"),
     ("priority", toString (priority.getD 1)),
     ("featuredBy", username)]

/-- The second copy the feature route awaits: the same source copied into
the public web bucket (source lines 312-321). -/
def featureWebOp (s3Key propertyId nowIso : String) : S3Op :=
  S3Op.copy webBucket (mediaBucket ++ "/" ++ s3Key)
    ("assets/properties/" ++ propertyId ++ "/" ++ lastSegment s3Key)
    [("source", "featured"), ("featuredDate", nowIso)]

/-- Execute the feature route body against a store in which individual
copies may fail: a failed copy throws, so the handler's `catch` reports
500; on success the 200 result is returned. The store keeps whatever the
commands completed before the failure wrote. -/
def featureExec (adminUsername : String) (body : FeatureBody)
    (today nowIso : String) (fails : S3Op → Bool) (st : Store) :
    Store × Nat × FeatureResult :=
  let hr := featureHandler adminUsername body today nowIso
  if hr.2 = FeatureResult.missingKey then (st, 400, FeatureResult.missingKey)
  else
    let ro := runOps fails hr.1 st
    (ro.1, if ro.2 then 200 else 500, hr.2)

/-- The decision record returned by the reject route. -/
structure RejectRecord where
  contentId : String
  rejectedBy : String
  rejectedAt : String
  reason : String
  deriving Repr, DecidableEq

/-- Route `POST /api/admin/content/:contentId/reject` (source lines 340-357),
past the auth gate: emits a decision record and issues no S3 command. -/
def rejectHandler (adminUsername contentId rejectionReason nowIso : String) :
    List S3Op × RejectRecord :=
  ([], { contentId := contentId, rejectedBy := adminUsername,
         rejectedAt := nowIso, reason := rejectionReason })

/-- A handler composed with the `requireAuth` gate, as
`router.post(path, requireAuth, handler)` does: the gate runs on the
session first, and the handler sees the refreshed session's username. -/
def gated {α : Type} (handler : String → List S3Op × α) (s : Session)
    (now : Nat) : Option (List S3Op × α) :=
  match requireAuth s now with
  | .proceed s' => some (handler s'.adminUsername)
  | .denied _ _ _ _ => none

/-- Characters allowed in an embedded filename portion: the sanitizer's
kept class `[a-zA-Z0-9.-]` together with the replacement character. -/
def isSafeChar (c : Char) : Bool :=
  isKeyChar c || c = '_'

/-- The filename portion embedded in a derived key: the sanitized
filename, additionally run through the first-dot replacement for the
`approved_edited` stage. -/
def embeddedFileName (stage fileName : String) : String :=
  if stage = "approved_edited" then enhancedFileName (sanitizeFileName fileName)
  else sanitizeFileName fileName

/-- The approve route: gate then handler. -/
def approveRoute (s : Session) (now : Nat) (body : ApproveBody)
    (today nowIso : String) : Option (List S3Op × ApproveResult) :=
  gated (fun u => approveHandler u body today nowIso) s now

/-- The reject route: gate then handler. -/
def rejectRoute (s : Session) (now : Nat) (contentId rejectionReason nowIso : String) :
    Option (List S3Op × RejectRecord) :=
  gated (fun u => rejectHandler u contentId rejectionReason nowIso) s now

/-! ## Helper lemmas -/

/-- Every character produced by the sanitizing map is in the safe class. -/
theorem sanitizeMap_all_safe (l : List Char) :
    (l.map (fun c => if isKeyChar c then c else '_')).all isSafeChar = true := by
  induction l with
  | nil => rfl
  | cons c cs ih =>
    simp only [List.map_cons, List.all_cons, ih, Bool.and_true]
    by_cases h : isKeyChar c = true
    · simp [isSafeChar, h]
    · simp [h]
      decide

/-- The sanitized filename consists of safe characters only. -/
theorem sanitizeFileName_all_safe (fileName : String) :
    (sanitizeFileName fileName).data.all isSafeChar = true :=
  sanitizeMap_all_safe fileName.data

/-- The first-dot replacement keeps character safety: `_enhanced.` itself
is made of safe characters. -/
theorem replaceFirstDotAux_all_safe (l : List Char) (h : l.all isSafeChar = true) :
    (replaceFirstDotAux l).all isSafeChar = true := by
  induction l with
  | nil => rfl
  | cons c cs ih =>
    simp only [List.all_cons, Bool.and_eq_true] at h
    simp only [replaceFirstDotAux]
    by_cases hc : c = '.'
    · rw [if_pos hc]
      simp only [List.all_append, h.2, Bool.and_true]
      decide
    · rw [if_neg hc]
      simp only [List.all_cons, h.1, ih h.2, Bool.and_self]

/-- The first-dot replacement rewrites exactly the first occurrence of a
dot and leaves everything after it untouched. -/
theorem replaceFirstDotAux_first (xs ys : List Char) (h : '.' ∉ xs) :
    replaceFirstDotAux (xs ++ '.' :: ys) = xs ++ "_enhanced.".data ++ ys := by
  induction xs with
  | nil => simp [replaceFirstDotAux]
  | cons c cs ih =>
    simp only [List.mem_cons, not_or] at h
    have hc : ¬ c = '.' := fun hEq => h.1 hEq.symm
    simp only [List.cons_append, replaceFirstDotAux, if_neg hc]
    exact congrArg (fun l => c :: l) (ih h.2)

/-- The gate lets a fresh authenticated session through and stamps the
current time. -/
theorem requireAuth_proceed (s : Session) (now : Nat)
    (hA : s.adminAuthenticated = true)
    (h : now - (s.lastActivity.getD s.loginTime) ≤ sessionTimeout) :
    requireAuth s now = .proceed { s with lastActivity := some now } := by
  simp only [requireAuth, hA, Bool.not_true, Bool.false_eq_true, if_false]
  rw [if_neg]
  omega

/-- Across a run in which every request is allowed through, the recorded
`lastActivity` values are exactly the request times, in order. -/
theorem activityTrace_eq (ts : List Nat) :
    ∀ (s : Session) (tr : List Nat), activityTrace s ts = some tr → tr = ts := by
  induction ts with
  | nil =>
    intro s tr h
    simp only [activityTrace, Option.some.injEq] at h
    exact h.symm
  | cons t ts ih =>
    intro s tr h
    simp only [activityTrace] at h
    split at h
    next s' _ =>
      cases hat : activityTrace s' ts with
      | none =>
        rw [hat] at h
        simp at h
      | some l =>
        rw [hat] at h
        simp only [Option.map_some', Option.some.injEq] at h
        rw [← h, ih s' l hat]
    next =>
      simp at h

/-! ## Claim theorems -/

/-- C1: the authenticated-request gate rejects unauthenticated sessions
with 401 and a redirect hint; it destroys an authenticated session whose
recorded activity is more than two hours (7200000 ms) old and rejects
with 401 `Session expired`; otherwise it stamps `lastActivity := now` and
lets the request through — so across any sequence of allowed
authenticated requests at non-decreasing times, the recorded
`lastActivity` values are non-decreasing. -/
theorem requireAuth_gate (s : Session) (now : Nat) :
    (s.adminAuthenticated = false →
      requireAuth s now = .denied 401 "Authentication required" "/admin/login" false) ∧
    (∀ la, s.adminAuthenticated = true → s.lastActivity = some la →
      now - la > sessionTimeout →
      requireAuth s now = .denied 401 "Session expired" "/admin/login" true) ∧
    (∀ la, s.adminAuthenticated = true → s.lastActivity = some la →
      now - la ≤ sessionTimeout →
      requireAuth s now = .proceed { s with lastActivity := some now }) ∧
    (∀ ts tr, activityTrace s ts = some tr → tr = ts) ∧
    (∀ ts tr, activityTrace s ts = some tr →
      List.Chain' (· ≤ ·) ts → List.Chain' (· ≤ ·) tr) := by
  refine ⟨?_, ?_, ?_, ?_, ?_⟩
  · intro h
    simp [requireAuth, h]
  · intro la hA hla hOld
    simp only [requireAuth, hA, Bool.not_true, Bool.false_eq_true, if_false, hla,
      Option.getD_some]
    rw [if_pos hOld]
  · intro la hA hla hFresh
    exact requireAuth_proceed s now hA (by rw [hla]; exact hFresh)
  · intro ts tr h
    exact activityTrace_eq ts s tr h
  · intro ts tr h hchain
    rw [activityTrace_eq ts s tr h]
    exact hchain

/-- C1 witness: a fresh authenticated session is allowed through at time
5 and stamped, and a two-step allowed run records its times in order. -/
theorem requireAuth_gate_witness :
    requireAuth ⟨true, "admin", "admin@renthabit.com", 0, some 0⟩ 5
      = .proceed ⟨true, "admin", "admin@renthabit.com", 0, some 5⟩ :=
  (requireAuth_gate ⟨true, "admin", "admin@renthabit.com", 0, some 0⟩ 5).2.2.1
    0 rfl rfl (by decide)

/-- C10: when an authenticated session has no recorded `lastActivity`,
the gate computes the idle gap against `loginTime` instead: within the
two-hour window the request proceeds (and activity is stamped), beyond it
the session is destroyed as expired. -/
theorem requireAuth_loginTime_fallback (s : Session) (now : Nat)
    (hA : s.adminAuthenticated = true) (hNone : s.lastActivity = none) :
    (now - s.loginTime ≤ sessionTimeout →
      requireAuth s now = .proceed { s with lastActivity := some now }) ∧
    (now - s.loginTime > sessionTimeout →
      requireAuth s now = .denied 401 "Session expired" "/admin/login" true) := by
  constructor
  · intro h
    exact requireAuth_proceed s now hA (by rw [hNone]; exact h)
  · intro h
    simp only [requireAuth, hA, Bool.not_true, Bool.false_eq_true, if_false, hNone,
      Option.getD_none]
    rw [if_pos h]

/-- C10 witness: an authenticated session with no recorded activity and
`loginTime = 0` is allowed through at time 7200000 (exactly the window),
with activity stamped. -/
theorem requireAuth_loginTime_fallback_witness :
    requireAuth ⟨true, "admin", "admin@renthabit.com", 0, none⟩ 7200000
      = .proceed ⟨true, "admin", "admin@renthabit.com", 0, some 7200000⟩ :=
  (requireAuth_loginTime_fallback ⟨true, "admin", "admin@renthabit.com", 0, none⟩ 7200000
    rfl rfl).1 (by decide)

/-- C5: for every stage in {pending, approved_original, approved_edited,
featured} and every input fileName, the key-derivation function embeds a
sanitized filename portion (every character outside `[A-Za-z0-9.-]`
replaced by an underscore), and that embedded portion never contains a
character outside `[A-Za-z0-9._-]`. -/
theorem generateS3Key_filename_sanitized (stage : String)
    (hstage : stage ∈ ["pending", "approved_original", "approved_edited", "featured"])
    (userId propertyId fileName today : String) :
    (∃ pre, generateS3Key stage userId propertyId fileName today
        = pre ++ embeddedFileName stage fileName) ∧
    (embeddedFileName stage fileName).data.all isSafeChar = true := by
  have hsan := sanitizeFileName_all_safe fileName
  fin_cases hstage
  · exact ⟨⟨"pending-uploads/" ++ userId ++ "/property-" ++ propertyId ++ "/images/", rfl⟩, hsan⟩
  · exact ⟨⟨"approved-content/" ++ userId ++ "/property-" ++ propertyId ++ "/original/", rfl⟩, hsan⟩
  · exact ⟨⟨"approved-content/" ++ userId ++ "/property-" ++ propertyId ++ "/edited/", rfl⟩,
      replaceFirstDotAux_all_safe _ hsan⟩
  · exact ⟨⟨"featured-showcase/curated-properties/" ++ today ++ "_", rfl⟩, hsan⟩

/-- C5 witness: the sanitizer at work on a concrete featured-stage key
with a space and a dollar sign in the filename. -/
theorem generateS3Key_filename_sanitized_witness :
    (∃ pre, generateS3Key "featured" "u1" "42" "my photo$.jpg" "2026-10-11"
        = pre ++ embeddedFileName "featured" "my photo$.jpg") ∧
    (embeddedFileName "featured" "my photo$.jpg").data.all isSafeChar = true :=
  generateS3Key_filename_sanitized "featured" (by simp) "u1" "42" "my photo$.jpg" "2026-10-11"

/-- C6: the `approved_edited` key is the `/edited/` template around the
sanitized filename with only the first dot replaced by `_enhanced.`; for
any sanitized filename split as `xs ++ '.' :: ys` with no dot in `xs`,
exactly that first dot is rewritten and the rest is untouched, so
`a.b.jpg` yields `a_enhanced.b.jpg`. -/
theorem generateS3Key_approvedEdited_firstDot (userId propertyId fileName today : String) :
    (generateS3Key "approved_edited" userId propertyId fileName today
      = "approved-content/" ++ userId ++ "/property-" ++ propertyId ++ "/edited/"
          ++ enhancedFileName (sanitizeFileName fileName)) ∧
    (∀ xs ys : List Char, '.' ∉ xs →
      replaceFirstDotAux (xs ++ '.' :: ys) = xs ++ "_enhanced.".data ++ ys) ∧
    (∀ t : String, generateS3Key "approved_edited" "u" "p" "a.b.jpg" t
      = "approved-content/u/property-p/edited/a_enhanced.b.jpg") :=
  ⟨rfl, replaceFirstDotAux_first, fun _ => rfl⟩

/-- C6 witness: the multi-dot filename `a.b.jpg` is rewritten at its
first dot only. -/
theorem generateS3Key_approvedEdited_firstDot_witness :
    ('.' ∉ ['a']) ∧
    replaceFirstDotAux (['a'] ++ '.' :: "b.jpg".data) = ['a'] ++ "_enhanced.".data ++ "b.jpg".data :=
  ⟨by decide,
    (generateS3Key_approvedEdited_firstDot "u" "p" "a.b.jpg" "t").2.1 ['a'] "b.jpg".data (by decide)⟩

/-- C3: approving `s3Key = "pending-uploads/u1/property-42/images/photo.jpg"`
with `userId = "u1"`, `propertyId = "42"` through an authenticated
session computes and returns
`originalKey = "approved-content/u1/property-42/original/photo.jpg"` as
the destination of the same-bucket copy, and leaves the source object
untouched: the handler issues no delete, and the store is unchanged at
the source path. -/
theorem approveRoute_originalKey (s : Session) (now : Nat)
    (adminNotes today nowIso : String) (st : Store)
    (hA : s.adminAuthenticated = true)
    (hFresh : now - (s.lastActivity.getD s.loginTime) ≤ sessionTimeout) :
    ∃ ops res,
      approveRoute s now
          { adminNotes := adminNotes,
            s3Key := "pending-uploads/u1/property-42/images/photo.jpg",
            userId := "u1", propertyId := "42" } today nowIso = some (ops, res) ∧
      res = .ok "approved-content/u1/property-42/original/photo.jpg" s.adminUsername mediaBucket ∧
      applyOps ops st "renthabit-media/pending-uploads/u1/property-42/images/photo.jpg"
        = st "renthabit-media/pending-uploads/u1/property-42/images/photo.jpg" ∧
      (∀ b k, S3Op.deleteObject b k ∉ ops) := by
  have hGate := requireAuth_proceed s now hA hFresh
  have hRoute : approveRoute s now
      { adminNotes := adminNotes,
        s3Key := "pending-uploads/u1/property-42/images/photo.jpg",
        userId := "u1", propertyId := "42" } today nowIso
      = some (approveHandler s.adminUsername
          { adminNotes := adminNotes,
            s3Key := "pending-uploads/u1/property-42/images/photo.jpg",
            userId := "u1", propertyId := "42" } today nowIso) := by
    unfold approveRoute gated
    rw [hGate]
  refine ⟨_, _, hRoute, rfl, ?_, ?_⟩
  · show (if ("renthabit-media/pending-uploads/u1/property-42/images/photo.jpg" : String)
        = mediaBucket ++ "/" ++ "approved-content/u1/property-42/original/photo.jpg"
      then st ("renthabit-media" ++ "/" ++ "pending-uploads/u1/property-42/images/photo.jpg")
      else st "renthabit-media/pending-uploads/u1/property-42/images/photo.jpg")
      = st "renthabit-media/pending-uploads/u1/property-42/images/photo.jpg"
    rw [if_neg (by decide)]
  · intro b k h
    simp only [List.mem_singleton] at h
    exact S3Op.noConfusion h

/-- C3 witness: the approve route evaluated on a concrete authenticated
session, clock, and empty store. -/
theorem approveRoute_originalKey_witness :
    ∃ ops res,
      approveRoute ⟨true, "admin", "admin@renthabit.com", 0, some 0⟩ 5
          { adminNotes := "",
            s3Key := "pending-uploads/u1/property-42/images/photo.jpg",
            userId := "u1", propertyId := "42" } "2026-10-11" "iso" = some (ops, res) ∧
      res = .ok "approved-content/u1/property-42/original/photo.jpg" "admin" mediaBucket ∧
      applyOps ops (fun _ => none) "renthabit-media/pending-uploads/u1/property-42/images/photo.jpg"
        = (fun _ => (none : Option String)) "renthabit-media/pending-uploads/u1/property-42/images/photo.jpg" ∧
      (∀ b k, S3Op.deleteObject b k ∉ ops) :=
  approveRoute_originalKey ⟨true, "admin", "admin@renthabit.com", 0, some 0⟩ 5
    "" "2026-10-11" "iso" (fun _ => none) rfl (by decide)

/-- C4: featuring `s3Key = "pending-uploads/u1/property-42/images/photo.jpg"`
with `userId = "u1"`, `propertyId = "42"` issues a media-bucket copy to
`featured-showcase/curated-properties/{today}_photo.jpg` and a
public-bucket copy to exactly `assets/properties/42/photo.jpg`, and
returns both keys together with both bucket names. -/
theorem featureHandler_keys (username today nowIso : String)
    (priority : Option Nat) (position : Option String) :
    featureHandler username
        { s3Key := "pending-uploads/u1/property-42/images/photo.jpg",
          userId := "u1", propertyId := "42",
          priority := priority, position := position } today nowIso
      = ([S3Op.copy "renthabit-media"
            "renthabit-media/pending-uploads/u1/property-42/images/photo.jpg"
            ("featured-showcase/curated-properties/" ++ today ++ "_photo.jpg")
            [("status", "featured"), ("featuredDate", nowIso),
             ("position", position.getD "gallery"),
             ("priority", toString (priority.getD 1)),
             ("featuredBy", username)],
          S3Op.copy "renthabit-web-prod"
            "renthabit-media/pending-uploads/u1/property-42/images/photo.jpg"
            "assets/properties/42/photo.jpg"
            [("source", "featured"), ("featuredDate", nowIso)]],
         .ok ("featured-showcase/curated-properties/" ++ today ++ "_photo.jpg")
           "assets/properties/42/photo.jpg" username "renthabit-media" "renthabit-web-prod") := by
  have h := String.append_assoc ("featured-showcase/curated-properties/" ++ today) "_" "photo.jpg"
  rw [show ("_" ++ "photo.jpg" : String) = "_photo.jpg" from rfl] at h
  rw [← h]
  rfl

/-- C2: two failing login attempts with non-empty fields — correct
username with a wrong password, and wrong username with any password —
produce the identical generic response: 401 with the body
`Invalid credentials`, revealing nothing about which field was wrong. -/
theorem loginHandler_no_leak (creds : AdminCredentials)
    (compare : String → String → Bool) (now : Nat) (u1 p1 u2 p2 : String)
    (hu1 : u1 ≠ "") (hp1 : p1 ≠ "") (hu2 : u2 ≠ "") (hp2 : p2 ≠ "")
    (hRightUser : normalizeUsername u1 = normalizeUsername creds.username)
    (hWrongPw : compare p1 creds.passwordHash = false)
    (hWrongUser : normalizeUsername u2 ≠ normalizeUsername creds.username) :
    loginHandler u1 p1 creds compare now = .invalidCredentials ∧
    loginHandler u2 p2 creds compare now = .invalidCredentials ∧
    LoginResult.invalidCredentials.statusCode = 401 ∧
    LoginResult.invalidCredentials.errorBody = "Invalid credentials" ∧
    loginHandler u1 p1 creds compare now = loginHandler u2 p2 creds compare now := by
  have h1 : loginHandler u1 p1 creds compare now = .invalidCredentials := by
    simp only [loginHandler]
    rw [if_neg (by simp [hu1, hp1]), if_neg (by simp [hWrongPw])]
  have h2 : loginHandler u2 p2 creds compare now = .invalidCredentials := by
    simp only [loginHandler]
    rw [if_neg (by simp [hu2, hp2]), if_neg (by simp [hWrongUser])]
  exact ⟨h1, h2, rfl, rfl, h1.trans h2.symm⟩

/-- C2 witness: with a comparator that rejects the attempted password,
the attempt `("admin", wrong pw)` and the attempt `("bob", any pw)` get
the same generic failure. -/
theorem loginHandler_no_leak_witness :
    loginHandler "admin" "wrongpw" ⟨"admin", "somehash", "admin@renthabit.com"⟩
        (fun _ _ => false) 0
      = loginHandler "bob" "whatever" ⟨"admin", "somehash", "admin@renthabit.com"⟩
        (fun _ _ => false) 0 :=
  (loginHandler_no_leak ⟨"admin", "somehash", "admin@renthabit.com"⟩ (fun _ _ => false) 0
    "admin" "wrongpw" "bob" "whatever"
    (by decide) (by decide) (by decide) (by decide) rfl rfl (by decide)).2.2.2.2

/-- C7: the credential fetch is total — every secret-store outcome yields
a credentials record — and every failure outcome yields the deterministic
fallback built from environment values (hardcoded defaults when unset),
with the failure logged. -/
theorem getAdminCredentials_fallback (outcome : Except SecretFailure AdminCredentials)
    (env : CredEnv) :
    (∀ err, outcome = .error err →
      getAdminCredentials outcome env = (fallbackCredentials env, true)) ∧
    (∀ creds, outcome = .ok creds →
      getAdminCredentials outcome env = (creds, false)) ∧
    fallbackCredentials { adminUsername := none, adminPasswordHash := none, adminEmail := none }
      = { username := "admin",
          passwordHash := "$2b$12$LQv3c1yqBWVHxkd0LHAkCOYz6TtxMQJqhN8/LewdhquMgGFbOvS0a",
          email := "admin@renthabit.com" } := by
  refine ⟨?_, ?_, rfl⟩
  · intro err h
    subst h
    rfl
  · intro creds h
    subst h
    rfl

/-- C7 witness: a network failure with an empty environment yields the
hardcoded fallback record, logged. -/
theorem getAdminCredentials_fallback_witness :
    getAdminCredentials (.error .network)
        { adminUsername := none, adminPasswordHash := none, adminEmail := none }
      = (fallbackCredentials
          { adminUsername := none, adminPasswordHash := none, adminEmail := none }, true) :=
  (getAdminCredentials_fallback (.error .network)
    { adminUsername := none, adminPasswordHash := none, adminEmail := none }).1 .network rfl

/-- C8: the reject route, through an authenticated session, issues no
object-store operation — the store is identical before and after — and
returns only the decision record with the content id, the session
username, the timestamp, and the given reason. -/
theorem rejectRoute_no_store_ops (s : Session) (now : Nat)
    (contentId reason nowIso : String) (st : Store)
    (hA : s.adminAuthenticated = true)
    (hFresh : now - (s.lastActivity.getD s.loginTime) ≤ sessionTimeout) :
    ∃ ops rec,
      rejectRoute s now contentId reason nowIso = some (ops, rec) ∧
      ops = [] ∧
      applyOps ops st = st ∧
      rec = { contentId := contentId, rejectedBy := s.adminUsername,
              rejectedAt := nowIso, reason := reason } := by
  have hGate := requireAuth_proceed s now hA hFresh
  refine ⟨[], { contentId := contentId, rejectedBy := s.adminUsername,
                rejectedAt := nowIso, reason := reason }, ?_, rfl, rfl, rfl⟩
  unfold rejectRoute gated
  rw [hGate]
  rfl

/-- C9: the feature operation issues its two copies in a fixed order —
the media-bucket copy to the featured key first, then the public-bucket
copy — and when the second copy fails after the first succeeded, the
operation reports 500 while the featured copy is already written in the
media bucket: no rollback and no compensating delete is issued. -/
theorem featureExec_partial_failure (username s3Key userId propertyId today nowIso : String)
    (priority : Option Nat) (position : Option String) (st : Store)
    (fails : S3Op → Bool) (hKey : ¬ s3Key = "")
    (hOk1 : fails (featureMediaOp username s3Key userId propertyId today nowIso priority position)
      = false)
    (hFail2 : fails (featureWebOp s3Key propertyId nowIso) = true) :
    (featureHandler username ⟨s3Key, userId, propertyId, priority, position⟩ today nowIso).1
      = [featureMediaOp username s3Key userId propertyId today nowIso priority position,
         featureWebOp s3Key propertyId nowIso] ∧
    featureExec username ⟨s3Key, userId, propertyId, priority, position⟩ today nowIso fails st
      = (applyOp (featureMediaOp username s3Key userId propertyId today nowIso priority position) st,
         500,
         .ok (generateS3Key "featured" userId propertyId (lastSegment s3Key) today)
           ("assets/properties/" ++ propertyId ++ "/" ++ lastSegment s3Key)
           username mediaBucket webBucket) ∧
    applyOp (featureMediaOp username s3Key userId propertyId today nowIso priority position) st
        (mediaBucket ++ "/" ++ generateS3Key "featured" userId propertyId (lastSegment s3Key) today)
      = st (mediaBucket ++ "/" ++ s3Key) ∧
    (∀ b k, S3Op.deleteObject b k
      ∉ [featureMediaOp username s3Key userId propertyId today nowIso priority position,
         featureWebOp s3Key propertyId nowIso]) := by
  have hops : featureHandler username ⟨s3Key, userId, propertyId, priority, position⟩ today nowIso
      = ([featureMediaOp username s3Key userId propertyId today nowIso priority position,
          featureWebOp s3Key propertyId nowIso],
         .ok (generateS3Key "featured" userId propertyId (lastSegment s3Key) today)
           ("assets/properties/" ++ propertyId ++ "/" ++ lastSegment s3Key)
           username mediaBucket webBucket) := by
    simp only [featureHandler]
    rw [if_neg hKey]
    rfl
  have hrun : runOps fails
      [featureMediaOp username s3Key userId propertyId today nowIso priority position,
       featureWebOp s3Key propertyId nowIso] st
      = (applyOp (featureMediaOp username s3Key userId propertyId today nowIso priority position) st,
         false) := by
    simp only [runOps, hOk1, hFail2, Bool.false_eq_true, if_false, if_true]
  refine ⟨by rw [hops], ?_, ?_, ?_⟩
  · unfold featureExec
    rw [hops]
    rw [if_neg (by simp)]
    rw [hrun]
    rfl
  · simp only [featureMediaOp, applyOp]
    rw [if_pos trivial]
  · intro b k h
    simp only [List.mem_cons, List.not_mem_nil, or_false, featureMediaOp, featureWebOp] at h
    rcases h with h | h
    · exact S3Op.noConfusion h
    · exact S3Op.noConfusion h

/-- C9 witness: a concrete feature invocation where the web-bucket copy
fails after the media-bucket copy succeeded. -/
theorem featureExec_partial_failure_witness :
    featureExec "admin"
        ⟨"pending-uploads/u1/property-42/images/photo.jpg", "u1", "42", none, none⟩
        "2026-10-11" "iso"
        (fun op => decide (op = featureWebOp "pending-uploads/u1/property-42/images/photo.jpg" "42" "iso"))
        (fun _ => none)
      = (applyOp (featureMediaOp "admin" "pending-uploads/u1/property-42/images/photo.jpg"
            "u1" "42" "2026-10-11" "iso" none none) (fun _ => none),
         500,
         .ok (generateS3Key "featured" "u1" "42"
             (lastSegment "pending-uploads/u1/property-42/images/photo.jpg") "2026-10-11")
           ("assets/properties/" ++ "42" ++ "/"
             ++ lastSegment "pending-uploads/u1/property-42/images/photo.jpg")
           "admin" mediaBucket webBucket) :=
  (featureExec_partial_failure "admin" "pending-uploads/u1/property-42/images/photo.jpg"
    "u1" "42" "2026-10-11" "iso" none none (fun _ => none)
    (fun op => decide (op = featureWebOp "pending-uploads/u1/property-42/images/photo.jpg" "42" "iso"))
    (by decide) (by decide) (by decide)).2.1

/-- C8 witness: the reject route evaluated on a concrete authenticated
session and empty store. -/
theorem rejectRoute_no_store_ops_witness :
    ∃ ops rec,
      rejectRoute ⟨true, "admin", "admin@renthabit.com", 0, some 0⟩ 5 "c1" "blurry" "iso"
        = some (ops, rec) ∧
      ops = [] ∧
      applyOps ops (fun _ => none) = (fun _ => none) ∧
      rec = { contentId := "c1", rejectedBy := "admin", rejectedAt := "iso", reason := "blurry" } :=
  rejectRoute_no_store_ops ⟨true, "admin", "admin@renthabit.com", 0, some 0⟩ 5
    "c1" "blurry" "iso" (fun _ => none) rfl (by decide)

end RentHabit
